import Mathlib

/-!
Shallow embedding of the indicator computation engine of the TA-Lib MCP
server (src/talib_mcp_server.py).  The Python file is a thin wrapper over
the TA-Lib library: each tool converts its input lists to arrays, calls the
corresponding TA-Lib indicator, and returns the result as a list.  The
indicator mathematics itself lives in the TA-Lib dependency, which is not
part of this repository's sources; those computations are modelled from the
specification (spec.md, section 4) in the `talib` namespace below.  Prices
are embedded as rationals, the floating NaN warm-up sentinel as `none` in
`Option`, and a raised Python exception as `Except.error`.
-/

namespace TalibMCP

/-- Error kinds of the validation boundary (spec section 7): unequal input
series lengths, series shorter than the requested window, and non-positive
period parameters. -/
inductive TAError where
  | insufficientData
  | invalidParameter
  | shapeMismatch
deriving DecidableEq, Repr

namespace talib

/-- Modelled from the spec: SMA, section 4.1.  Output index i is undefined
(none) for i < period - 1 and otherwise the arithmetic mean of the trailing
period values series[i-period+1..i].  The TA-Lib implementation of SMA is
not in the repository sources. -/
def SMA (prices : List ℚ) (period : ℕ) : List (Option ℚ) :=
  (List.range prices.length).map fun i =>
    if i + 1 < period then none
    else some (((prices.drop (i + 1 - period)).take period).sum / (period : ℚ))

/-- Recurrence part of the EMA: given the smoothing constant k and the
previous EMA value, emit ema = value * k + prev * (1 - k) for each further
value (spec section 4.1). -/
def emaRun (k prev : ℚ) : List ℚ → List ℚ
  | [] => []
  | x :: xs =>
    let e := x * k + prev * (1 - k)
    e :: emaRun k e xs

/-- Modelled from the spec: EMA, section 4.1.  Seed = SMA of the first
period values (undefined before that point); thereafter the recurrence with
k = 2 / (period + 1).  When the series is shorter than the period there is
no seed and every position is undefined.  The TA-Lib implementation of EMA
is not in the repository sources. -/
def EMA (prices : List ℚ) (period : ℕ) : List (Option ℚ) :=
  if prices.length < period ∨ period = 0 then
    List.replicate prices.length none
  else
    let seed := (prices.take period).sum / (period : ℚ)
    let k : ℚ := 2 / ((period : ℚ) + 1)
    List.replicate (period - 1) (none : Option ℚ) ++
      some seed :: (emaRun k seed (prices.drop period)).map some

/-- Recurrence part of Wilder smoothing: identical to the EMA recurrence
with k = 1 / period (spec section 4.1 and glossary). -/
def wilderRun (period : ℕ) (prev : ℚ) : List ℚ → List ℚ
  | [] => []
  | x :: xs =>
    let w := (prev * ((period : ℚ) - 1) + x) / (period : ℚ)
    w :: wilderRun period w xs

/-- Modelled from the spec: Wilder smoothing, section 4.1.  Seed = simple
average of the first period raw values, then the recurrence with factor
1 / period.  Used by RSI and ATR. -/
def wilder (values : List ℚ) (period : ℕ) : List (Option ℚ) :=
  if values.length < period ∨ period = 0 then
    List.replicate values.length none
  else
    let seed := (values.take period).sum / (period : ℚ)
    List.replicate (period - 1) (none : Option ℚ) ++
      some seed :: (wilderRun period seed (values.drop period)).map some

/-- Bar-to-bar differences of a series: diffs l has one entry fewer than l. -/
def diffs : List ℚ → List ℚ
  | x :: y :: xs => (y - x) :: diffs (y :: xs)
  | _ => []

/-- RSI value from a Wilder-smoothed average gain and average loss (spec
section 4.4): RS = avgGain / avgLoss and RSI = 100 - 100 / (1 + RS), with
the documented guard RSI = 100 when avgLoss = 0. -/
def rsiVal (avgGain avgLoss : ℚ) : ℚ :=
  if avgLoss = 0 then 100 else 100 - 100 / (1 + avgGain / avgLoss)

/-- Pointwise RSI combination; undefined while either average is undefined. -/
def optRsi : Option ℚ → Option ℚ → Option ℚ
  | some g, some l => some (rsiVal g l)
  | _, _ => none

/-- Modelled from the spec: RSI, section 4.4.  Gains and losses are taken
from the bar-to-bar differences and Wilder-smoothed over the period; index
0 has no difference and the first defined output sits at index period.  The
TA-Lib implementation of RSI is not in the repository sources. -/
def RSI (prices : List ℚ) (period : ℕ) : List (Option ℚ) :=
  match prices with
  | [] => []
  | _ :: _ =>
    let g := wilder ((diffs prices).map fun d => max d 0) period
    let l := wilder ((diffs prices).map fun d => max (-d) 0) period
    none :: List.zipWith optRsi g l

/-- Pointwise subtraction on optional values; undefined if either side is. -/
def optSub : Option ℚ → Option ℚ → Option ℚ
  | some a, some b => some (a - b)
  | _, _ => none

/-- Pointwise addition on optional values; undefined if either side is. -/
def optAdd : Option ℚ → Option ℚ → Option ℚ
  | some a, some b => some (a + b)
  | _, _ => none

/-- Length of the undefined warm-up prefix of a result series. -/
def leadNoneCount (l : List (Option ℚ)) : ℕ :=
  (l.takeWhile fun o => o.isNone).length

/-- EMA applied to a series that starts with a warm-up prefix of undefined
values: the defined suffix is smoothed and the prefix is kept undefined.
Used for the MACD signal line (spec section 4.4). -/
def emaOptList (l : List (Option ℚ)) (period : ℕ) : List (Option ℚ) :=
  List.replicate (leadNoneCount l) none ++
    EMA ((l.drop (leadNoneCount l)).filterMap id) period

/-- SMA applied to a series that starts with a warm-up prefix of undefined
values; used for the Stochastic smoothing stages (spec section 4.4). -/
def smaOptList (l : List (Option ℚ)) (period : ℕ) : List (Option ℚ) :=
  List.replicate (leadNoneCount l) none ++
    SMA ((l.drop (leadNoneCount l)).filterMap id) period

/-- The three output series of the MACD indicator. -/
structure MacdResult where
  macdLine : List (Option ℚ)
  signalLine : List (Option ℚ)
  histogram : List (Option ℚ)

/-- Modelled from the spec: MACD, section 4.4.  macdLine is the difference
of the fast and slow EMAs, signalLine the EMA of the macdLine, histogram
the difference of the two.  The TA-Lib implementation of MACD is not in the
repository sources. -/
def MACD (prices : List ℚ) (fastperiod slowperiod signalperiod : ℕ) :
    MacdResult :=
  let m := List.zipWith optSub (EMA prices fastperiod) (EMA prices slowperiod)
  let s := emaOptList m signalperiod
  { macdLine := m, signalLine := s, histogram := List.zipWith optSub m s }

/-- Running part of OBV: carry the previous close and the accumulator, add
the volume on a rise, subtract it on a fall, keep it on a tie. -/
def obvRun (prevClose acc : ℚ) : List (ℚ × ℚ) → List ℚ
  | [] => []
  | (c, v) :: rest =>
    let acc2 := if prevClose < c then acc + v
      else if c < prevClose then acc - v else acc
    acc2 :: obvRun c acc2 rest

/-- Modelled from the spec: OBV, section 4.5.  obv[0] = volume[0]; for
i > 0 the volume is added if the close rose, subtracted if it fell and the
sum is unchanged on a tie.  The TA-Lib implementation of OBV is not in the
repository sources. -/
def OBV (closes volume : List ℚ) : List ℚ :=
  match closes, volume with
  | c :: cs, v :: vs => v :: obvRun c v (cs.zip vs)
  | _, _ => []

/-- Three equal-length price series zipped into (high, low, close) bars. -/
def zip3Q : List ℚ → List ℚ → List ℚ → List (ℚ × ℚ × ℚ)
  | h :: hs, l :: ls, c :: cs => (h, l, c) :: zip3Q hs ls cs
  | _, _, _ => []

/-- True Range of each bar against the previous close (spec section 4.3):
max of high - low, the absolute high-to-previous-close move and the
absolute low-to-previous-close move. -/
def trList (prevClose : ℚ) : List (ℚ × ℚ × ℚ) → List ℚ
  | [] => []
  | (h, l, c) :: bs =>
    max (h - l) (max |h - prevClose| |l - prevClose|) :: trList c bs

/-- Modelled from the spec: ATR, section 4.3.  True Range is undefined at
index 0 (no prior close) and the remaining True Ranges are Wilder-smoothed
over the period.  The TA-Lib implementation of ATR is not in the repository
sources. -/
def ATR (highs lows closes : List ℚ) (period : ℕ) : List (Option ℚ) :=
  match zip3Q highs lows closes with
  | [] => []
  | (_, _, c) :: bs => none :: wilder (trList c bs) period

/-- Modelled from the spec: the fast stochastic line, section 4.4, with the
zero-range guard pinned to the spec's first option of emitting 50 when the
trailing window has no high-low spread. -/
def stochFastK (highs lows closes : List ℚ) (period : ℕ) : List (Option ℚ) :=
  (List.range closes.length).map fun i =>
    if i + 1 < period then none
    else
      let hh := ((highs.drop (i + 1 - period)).take period).max?.getD 0
      let ll := ((lows.drop (i + 1 - period)).take period).min?.getD 0
      let c := closes.getD i 0
      some (if hh - ll = 0 then 50 else 100 * (c - ll) / (hh - ll))

/-- The two output series of the Stochastic Oscillator. -/
structure StochResult where
  slowk : List (Option ℚ)
  slowd : List (Option ℚ)

/-- Modelled from the spec: Stochastic Oscillator, section 4.4, with the
default matype 0 (SMA smoothing) used by the server: slow K is the moving
average of fast K over slowk_period, and D the moving average of slow K
over slowd_period.  The TA-Lib implementation of STOCH is not in the
repository sources. -/
def STOCH (highs lows closes : List ℚ)
    (fastk_period slowk_period slowd_period : ℕ) : StochResult :=
  let fastk := stochFastK highs lows closes fastk_period
  let sk := smaOptList fastk slowk_period
  { slowk := sk, slowd := smaOptList sk slowd_period }

/-- Population variance of the trailing window ending at index i, used by
STDDEV (spec section 4.3). -/
def windowVariance (prices : List ℚ) (period i : ℕ) : ℚ :=
  let w := (prices.drop (i + 1 - period)).take period
  let m := w.sum / (period : ℚ)
  ((w.map fun x => (x - m) ^ 2).sum) / (period : ℚ)

/-- Modelled from the spec: STDDEV, section 4.3, scaled by nbdev.  The
square root on rationals is not algebraic, so it is passed in as the
parameter sq; no claim below depends on its values, only on where the
output is defined. -/
def STDDEV (sq : ℚ → ℚ) (prices : List ℚ) (period : ℕ) (nbdev : ℚ) :
    List (Option ℚ) :=
  (List.range prices.length).map fun i =>
    if i + 1 < period then none
    else some (nbdev * sq (windowVariance prices period i))

/-- The three output series of the Bollinger Bands indicator. -/
structure BBandsResult where
  upper : List (Option ℚ)
  middle : List (Option ℚ)
  lower : List (Option ℚ)

/-- Modelled from the spec: Bollinger Bands, section 4.3, with the default
matype 0 used by the server: middle = SMA, upper = middle + nbdevup *
STDDEV, lower = middle - nbdevdn * STDDEV; all three share the middle
band's warm-up.  The TA-Lib implementation of BBANDS is not in the
repository sources. -/
def BBANDS (sq : ℚ → ℚ) (prices : List ℚ) (period : ℕ)
    (nbdevup nbdevdn : ℚ) : BBandsResult :=
  let mid := SMA prices period
  { upper := List.zipWith optAdd mid (STDDEV sq prices period nbdevup)
    middle := mid
    lower := List.zipWith optSub mid (STDDEV sq prices period nbdevdn) }

/-- One OHLC price bar (spec section 3). -/
structure Bar where
  op : ℚ
  hi : ℚ
  lo : ℚ
  cl : ℚ
deriving DecidableEq, Repr

/-- Candle body length (spec section 4.7). -/
def bodyLen (b : Bar) : ℚ := |b.cl - b.op|

/-- Upper shadow of a candle (spec section 4.7). -/
def upperShadow (b : Bar) : ℚ := b.hi - max b.op b.cl

/-- Lower shadow of a candle (spec section 4.7). -/
def lowerShadow (b : Bar) : ℚ := min b.op b.cl - b.lo

/-- High-low spread of a candle (spec section 4.7). -/
def barRange (b : Bar) : ℚ := b.hi - b.lo

/-- Modelled from the spec: Doji classification, section 4.7: the body is
negligible relative to the bar range (threshold pinned at one tenth) and
the signal is a single directionless informational code 100. -/
def dojiBar (b : Bar) : ℤ :=
  if 10 * bodyLen b ≤ barRange b then 100 else 0

/-- Modelled from the spec: Hammer classification, section 4.7: a long
(hence positive) lower shadow of at least twice the body, a negligible
upper shadow, a small body, after a downtrend (a new low against the prior
bar).  Bullish signal 100. -/
def hammerBar (prev b : Bar) : ℤ :=
  if 0 < lowerShadow b ∧ 2 * bodyLen b ≤ lowerShadow b ∧
      10 * upperShadow b ≤ barRange b ∧ 2 * bodyLen b ≤ barRange b ∧
      b.lo < prev.lo then 100 else 0

/-- Modelled from the spec: Shooting Star classification, section 4.7, the
mirror of the Hammer: a long (hence positive) upper shadow of at least
twice the body, a negligible lower shadow, a small body, after an uptrend
(a new high against the prior bar).  Bearish signal -100. -/
def shootingStarBar (prev b : Bar) : ℤ :=
  if 0 < upperShadow b ∧ 2 * bodyLen b ≤ upperShadow b ∧
      10 * lowerShadow b ≤ barRange b ∧ 2 * bodyLen b ≤ barRange b ∧
      prev.hi < b.hi then -100 else 0

/-- Modelled from the spec: Engulfing classification, section 4.7: the
current body strictly contains the prior body and the two bodies have
opposite colors; bullish 100 when a bullish candle engulfs a bearish one,
bearish -100 in the mirrored case. -/
def engulfingBar (prev b : Bar) : ℤ :=
  if prev.cl < prev.op ∧ b.op < b.cl ∧ b.op < prev.cl ∧ prev.op < b.cl then
    100
  else if prev.op < prev.cl ∧ b.cl < b.op ∧ prev.cl < b.op ∧ b.cl < prev.op then
    -100
  else 0

/-- Four equal-length price series zipped into OHLC bars. -/
def mkBars : List ℚ → List ℚ → List ℚ → List ℚ → List Bar
  | o :: os, h :: hs, l :: ls, c :: cs => ⟨o, h, l, c⟩ :: mkBars os hs ls cs
  | _, _, _, _ => []

/-- Apply a two-bar pattern rule along the series, carrying the prior bar. -/
def mapWithPrev (f : Bar → Bar → ℤ) : Bar → List Bar → List ℤ
  | _, [] => []
  | prev, b :: bs => f prev b :: mapWithPrev f b bs

/-- A two-bar pattern emits 0 at index 0, which has no trailing history
(spec section 4.7), and applies its rule everywhere else. -/
def patternSeries (f : Bar → Bar → ℤ) (bars : List Bar) : List ℤ :=
  match bars with
  | [] => []
  | b :: bs => 0 :: mapWithPrev f b bs

/-- Modelled from the spec: the Doji recognizer, section 4.7. -/
def CDLDOJI (bars : List Bar) : List ℤ := bars.map dojiBar

/-- Modelled from the spec: the Hammer recognizer, section 4.7. -/
def CDLHAMMER (bars : List Bar) : List ℤ := patternSeries hammerBar bars

/-- Modelled from the spec: the Shooting Star recognizer, section 4.7. -/
def CDLSHOOTINGSTAR (bars : List Bar) : List ℤ :=
  patternSeries shootingStarBar bars

/-- Modelled from the spec: the Engulfing recognizer, section 4.7. -/
def CDLENGULFING (bars : List Bar) : List ℤ := patternSeries engulfingBar bars

end talib

/-- Wrapper from src/talib_mcp_server.py lines 17-41: simple_moving_average
validates that the series has at least timeperiod points, raising a
ValueError (an InsufficientDataError in the spec's taxonomy) otherwise, and
then calls talib.SMA.  A non-positive period is rejected by the library
(spec section 7, InvalidParameter). -/
def simple_moving_average (prices : List ℚ) (timeperiod : ℕ) :
    Except TAError (List (Option ℚ)) :=
  if prices.length < timeperiod then .error .insufficientData
  else if timeperiod = 0 then .error .invalidParameter
  else .ok (talib.SMA prices timeperiod)

/-- Wrapper from src/talib_mcp_server.py lines 43-60: exponential_moving_average
performs no length validation of its own; it calls talib.EMA directly.
A non-positive period is rejected by the library (spec section 7). -/
def exponential_moving_average (prices : List ℚ) (timeperiod : ℕ) :
    Except TAError (List (Option ℚ)) :=
  if timeperiod = 0 then .error .invalidParameter
  else .ok (talib.EMA prices timeperiod)

/-- Wrapper from src/talib_mcp_server.py lines 62-90: bollinger_bands calls
talib.BBANDS directly with no validation of its own (matype 0, the server
default, is the modelled branch). -/
def bollinger_bands (sq : ℚ → ℚ) (prices : List ℚ) (timeperiod : ℕ)
    (nbdevup nbdevdn : ℚ) : Except TAError talib.BBandsResult :=
  if timeperiod = 0 then .error .invalidParameter
  else .ok (talib.BBANDS sq prices timeperiod nbdevup nbdevdn)

/-- Wrapper from src/talib_mcp_server.py lines 92-109: relative_strength_index
calls talib.RSI directly with no validation of its own. -/
def relative_strength_index (prices : List ℚ) (timeperiod : ℕ) :
    Except TAError (List (Option ℚ)) :=
  if timeperiod = 0 then .error .invalidParameter
  else .ok (talib.RSI prices timeperiod)

/-- Wrapper from src/talib_mcp_server.py lines 111-137: macd calls
talib.MACD directly and repackages its three series. -/
def macd (prices : List ℚ) (fastperiod slowperiod signalperiod : ℕ) :
    Except TAError talib.MacdResult :=
  if fastperiod = 0 ∨ slowperiod = 0 ∨ signalperiod = 0 then
    .error .invalidParameter
  else .ok (talib.MACD prices fastperiod slowperiod signalperiod)

/-- Wrapper from src/talib_mcp_server.py lines 139-179: stochastic_oscillator
passes the three series to talib.STOCH, whose binding rejects input series
of unequal lengths; the error propagates unchanged since the wrapper has no
handler (matype 0, the server default, is the modelled branch). -/
def stochastic_oscillator (high_prices low_prices close_prices : List ℚ)
    (fastk_period slowk_period slowd_period : ℕ) :
    Except TAError talib.StochResult :=
  if high_prices.length = low_prices.length ∧
      low_prices.length = close_prices.length then
    .ok (talib.STOCH high_prices low_prices close_prices
      fastk_period slowk_period slowd_period)
  else .error .shapeMismatch

/-- Wrapper from src/talib_mcp_server.py lines 181-205: average_true_range
passes the three series to talib.ATR, whose binding rejects input series of
unequal lengths; the error propagates unchanged since the wrapper has no
handler. -/
def average_true_range (high_prices low_prices close_prices : List ℚ)
    (timeperiod : ℕ) : Except TAError (List (Option ℚ)) :=
  if high_prices.length = low_prices.length ∧
      low_prices.length = close_prices.length then
    if timeperiod = 0 then .error .invalidParameter
    else .ok (talib.ATR high_prices low_prices close_prices timeperiod)
  else .error .shapeMismatch

/-- Wrapper from src/talib_mcp_server.py lines 207-226: on_balance_volume
passes close and volume to talib.OBV, whose binding rejects series of
unequal lengths. -/
def on_balance_volume (close_prices volume : List ℚ) :
    Except TAError (List ℚ) :=
  if close_prices.length = volume.length then
    .ok (talib.OBV close_prices volume)
  else .error .shapeMismatch

/-- Wrapper from src/talib_mcp_server.py lines 591-620: doji_pattern calls
talib.CDLDOJI on the four OHLC series, whose binding rejects series of
unequal lengths. -/
def doji_pattern (open_prices high_prices low_prices close_prices : List ℚ) :
    Except TAError (List ℤ) :=
  if open_prices.length = high_prices.length ∧
      high_prices.length = low_prices.length ∧
      low_prices.length = close_prices.length then
    .ok (talib.CDLDOJI
      (talib.mkBars open_prices high_prices low_prices close_prices))
  else .error .shapeMismatch

/-- Wrapper from src/talib_mcp_server.py lines 622-651: engulfing_pattern
calls talib.CDLENGULFING on the four OHLC series. -/
def engulfing_pattern
    (open_prices high_prices low_prices close_prices : List ℚ) :
    Except TAError (List ℤ) :=
  if open_prices.length = high_prices.length ∧
      high_prices.length = low_prices.length ∧
      low_prices.length = close_prices.length then
    .ok (talib.CDLENGULFING
      (talib.mkBars open_prices high_prices low_prices close_prices))
  else .error .shapeMismatch

/-- Wrapper from src/talib_mcp_server.py lines 653-682: hammer_pattern
calls talib.CDLHAMMER on the four OHLC series. -/
def hammer_pattern
    (open_prices high_prices low_prices close_prices : List ℚ) :
    Except TAError (List ℤ) :=
  if open_prices.length = high_prices.length ∧
      high_prices.length = low_prices.length ∧
      low_prices.length = close_prices.length then
    .ok (talib.CDLHAMMER
      (talib.mkBars open_prices high_prices low_prices close_prices))
  else .error .shapeMismatch

/-- Wrapper from src/talib_mcp_server.py lines 684-713: shooting_star_pattern
calls talib.CDLSHOOTINGSTAR on the four OHLC series. -/
def shooting_star_pattern
    (open_prices high_prices low_prices close_prices : List ℚ) :
    Except TAError (List ℤ) :=
  if open_prices.length = high_prices.length ∧
      high_prices.length = low_prices.length ∧
      low_prices.length = close_prices.length then
    .ok (talib.CDLSHOOTINGSTAR
      (talib.mkBars open_prices high_prices low_prices close_prices))
  else .error .shapeMismatch

namespace talib

theorem emaRun_length (k prev : ℚ) (xs : List ℚ) :
    (emaRun k prev xs).length = xs.length := by
  induction xs generalizing prev with
  | nil => rfl
  | cons x xs ih => simp [emaRun, ih]

theorem wilderRun_length (period : ℕ) (prev : ℚ) (xs : List ℚ) :
    (wilderRun period prev xs).length = xs.length := by
  induction xs generalizing prev with
  | nil => rfl
  | cons x xs ih => simp [wilderRun, ih]

theorem SMA_length (prices : List ℚ) (period : ℕ) :
    (SMA prices period).length = prices.length := by
  simp [SMA]

theorem EMA_length (prices : List ℚ) (period : ℕ) :
    (EMA prices period).length = prices.length := by
  by_cases h : prices.length < period ∨ period = 0
  · simp [EMA, h]
  · simp only [EMA, if_neg h]
    simp [emaRun_length]
    omega

theorem wilder_length (values : List ℚ) (period : ℕ) :
    (wilder values period).length = values.length := by
  by_cases h : values.length < period ∨ period = 0
  · simp [wilder, h]
  · simp only [wilder, if_neg h]
    simp [wilderRun_length]
    omega

/-- Warm-up positions of the SMA hold the undefined sentinel. -/
theorem SMA_warmup (prices : List ℚ) (period i : ℕ)
    (hi : i + 1 < period) (hlen : i < prices.length) :
    (SMA prices period)[i]? = some none := by
  simp [SMA, List.getElem?_range hlen, hi]

/-- Warm-up positions of the EMA hold the undefined sentinel. -/
theorem EMA_warmup (prices : List ℚ) (period i : ℕ)
    (hi : i + 1 < period) (hlen : i < prices.length) :
    (EMA prices period)[i]? = some none := by
  by_cases h : prices.length < period ∨ period = 0
  · simp [EMA, h, List.getElem?_replicate, hlen]
  · simp only [EMA, if_neg h]
    rw [List.getElem?_append]
    simp only [List.length_replicate]
    rw [if_pos (by omega), List.getElem?_replicate, if_pos (by omega)]

/-- Warm-up positions of Wilder smoothing hold the undefined sentinel. -/
theorem wilder_warmup (values : List ℚ) (period j : ℕ)
    (hj : j + 1 < period) (hlen : j < values.length) :
    (wilder values period)[j]? = some none := by
  by_cases h : values.length < period ∨ period = 0
  · simp [wilder, h, List.getElem?_replicate, hlen]
  · simp only [wilder, if_neg h]
    rw [List.getElem?_append]
    simp only [List.length_replicate]
    rw [if_pos (by omega), List.getElem?_replicate, if_pos (by omega)]

/-- At its first defined index, period - 1, the EMA equals its SMA seed. -/
theorem EMA_seed (prices : List ℚ) (period : ℕ)
    (h1 : 1 ≤ period) (h2 : period ≤ prices.length) :
    (EMA prices period)[period - 1]? =
      some (some ((prices.take period).sum / (period : ℚ))) := by
  simp only [EMA,
    if_neg (show ¬ (prices.length < period ∨ period = 0) by omega)]
  rw [List.getElem?_append_right (by simp)]
  simp

/-- At index period - 1 the SMA is the mean of the first period values. -/
theorem SMA_first (prices : List ℚ) (period : ℕ)
    (h1 : 1 ≤ period) (h2 : period ≤ prices.length) :
    (SMA prices period)[period - 1]? =
      some (some ((prices.take period).sum / (period : ℚ))) := by
  have hlt : period - 1 < prices.length := by omega
  simp only [SMA, List.getElem?_map, List.getElem?_range hlt]
  simp only [Option.map_some']
  rw [if_neg (by omega)]
  rw [show period - 1 + 1 - period = 0 by omega, List.drop_zero]

end talib

/-- C1, counterexample: the claim says every indicator entry point fails
with a validation error when a timeperiod-like parameter exceeds the series
length, but exponential_moving_average with a single price and timeperiod 2
returns an ordinary result, the all-undefined series, instead of failing. -/
theorem C1_counterexample :
    exponential_moving_average [1] 2 = .ok [none] := by rfl

/-- C1, amended: when a timeperiod-like parameter exceeds the series
length, simple_moving_average rejects the call with an
InsufficientDataError, but exponential_moving_average performs no such
validation and returns an all-undefined result of the input length. -/
theorem C1_validation_amended (prices : List ℚ) (timeperiod : ℕ)
    (h1 : 1 ≤ timeperiod) (h2 : prices.length < timeperiod) :
    simple_moving_average prices timeperiod = .error .insufficientData ∧
    exponential_moving_average prices timeperiod =
      .ok (List.replicate prices.length none) := by
  constructor
  · simp [simple_moving_average, h2]
  · have hz : ¬ timeperiod = 0 := by omega
    simp [exponential_moving_average, hz, talib.EMA, h2]

/-- C1, amended, witness at a one-point series with timeperiod 3. -/
theorem C1_validation_amended_witness :
    simple_moving_average [7] 3 = .error .insufficientData ∧
    exponential_moving_average [7] 3 = .ok (List.replicate 1 none) :=
  C1_validation_amended [7] 3 (by decide) (by decide)

/-- C2: with at least timeperiod prices, simple_moving_average succeeds
and returns talib.SMA, a series of the input length that is undefined
before index timeperiod - 1 and the trailing-window arithmetic mean from
there on; with fewer prices it fails with an InsufficientDataError; and on
ten tens followed by an eleven with timeperiod 5 the last value is 51/5,
that is 10.2. -/
theorem C2_sma_functional (prices : List ℚ) (timeperiod : ℕ)
    (hp : 1 ≤ timeperiod) :
    (prices.length < timeperiod →
      simple_moving_average prices timeperiod = .error .insufficientData) ∧
    (timeperiod ≤ prices.length →
      simple_moving_average prices timeperiod =
        .ok (talib.SMA prices timeperiod) ∧
      (talib.SMA prices timeperiod).length = prices.length ∧
      (∀ i, i + 1 < timeperiod → i < prices.length →
        (talib.SMA prices timeperiod)[i]? = some none) ∧
      (∀ i, timeperiod ≤ i + 1 → i < prices.length →
        (talib.SMA prices timeperiod)[i]? =
          some (some (((prices.drop (i + 1 - timeperiod)).take timeperiod).sum
            / (timeperiod : ℚ))))) ∧
    (talib.SMA [10, 10, 10, 10, 10, 10, 10, 10, 10, 10, 11] 5)[10]? =
      some (some (51 / 5)) := by
  refine ⟨fun hlt => by simp [simple_moving_average, hlt], fun hge => ?_,
    by norm_num [talib.SMA, List.range_succ]⟩
  have hnlt : ¬ prices.length < timeperiod := by omega
  have hnz : ¬ timeperiod = 0 := by omega
  refine ⟨by simp [simple_moving_average, hnlt, hnz],
    talib.SMA_length prices timeperiod,
    fun i hi hil => talib.SMA_warmup prices timeperiod i hi hil,
    fun i hi hil => ?_⟩
  simp only [talib.SMA, List.getElem?_map, List.getElem?_range hil,
    Option.map_some']
  rw [if_neg (by omega)]

/-- C2, witness at the end-to-end scenario series with timeperiod 5, plus
the rejection of a too-short series. -/
theorem C2_sma_functional_witness :
    simple_moving_average [10, 10, 10, 10, 10, 10, 10, 10, 10, 10, 11] 5 =
      .ok (talib.SMA [10, 10, 10, 10, 10, 10, 10, 10, 10, 10, 11] 5) ∧
    (talib.SMA [10, 10, 10, 10, 10, 10, 10, 10, 10, 10, 11] 5)[10]? =
      some (some (51 / 5)) ∧
    simple_moving_average [1, 2] 5 = .error .insufficientData := by
  refine ⟨((C2_sma_functional
      [10, 10, 10, 10, 10, 10, 10, 10, 10, 10, 11] 5 (by decide)).2.1
      (by decide)).1,
    (C2_sma_functional
      [10, 10, 10, 10, 10, 10, 10, 10, 10, 10, 11] 5 (by decide)).2.2,
    (C2_sma_functional [1, 2] 5 (by decide)).1 (by decide)⟩

/-- C4: when both are defined, exponential_moving_average and
simple_moving_average return talib.EMA and talib.SMA respectively, and at
the EMA's first defined index, timeperiod - 1, the two agree: both are the
mean of the first timeperiod values (the SMA seed of the EMA). -/
theorem C4_ema_seeding (prices : List ℚ) (timeperiod : ℕ)
    (h1 : 1 ≤ timeperiod) (h2 : timeperiod ≤ prices.length) :
    exponential_moving_average prices timeperiod =
      .ok (talib.EMA prices timeperiod) ∧
    simple_moving_average prices timeperiod =
      .ok (talib.SMA prices timeperiod) ∧
    (talib.EMA prices timeperiod)[timeperiod - 1]? =
      (talib.SMA prices timeperiod)[timeperiod - 1]? ∧
    (talib.EMA prices timeperiod)[timeperiod - 1]? =
      some (some ((prices.take timeperiod).sum / (timeperiod : ℚ))) := by
  have hnz : ¬ timeperiod = 0 := by omega
  have hnlt : ¬ prices.length < timeperiod := by omega
  refine ⟨by simp [exponential_moving_average, hnz],
    by simp [simple_moving_average, hnlt, hnz], ?_,
    talib.EMA_seed prices timeperiod h1 h2⟩
  rw [talib.EMA_seed prices timeperiod h1 h2,
    talib.SMA_first prices timeperiod h1 h2]

/-- C4, witness on the series 1..6 with timeperiod 3: the seed is 2. -/
theorem C4_ema_seeding_witness :
    (talib.EMA [1, 2, 3, 4, 5, 6] 3)[2]? =
      (talib.SMA [1, 2, 3, 4, 5, 6] 3)[2]? ∧
    (talib.EMA [1, 2, 3, 4, 5, 6] 3)[2]? = some (some 2) := by
  have h := C4_ema_seeding [1, 2, 3, 4, 5, 6] 3 (by decide) (by decide)
  refine ⟨h.2.2.1, ?_⟩
  rw [h.2.2.2]
  norm_num

/-- C10: for a non-empty series shorter than the timeperiod,
exponential_moving_average raises no error at all and returns the
same-length series every entry of which is the undefined sentinel. -/
theorem C10_ema_no_validation (prices : List ℚ) (timeperiod : ℕ)
    (hne : prices ≠ []) (hlt : prices.length < timeperiod) :
    exponential_moving_average prices timeperiod =
      .ok (List.replicate prices.length none) := by
  have hpos : 0 < prices.length := List.length_pos.mpr hne
  have hz : ¬ timeperiod = 0 := by omega
  simp [exponential_moving_average, hz, talib.EMA, hlt]

/-- C10, witness at a two-point series with timeperiod 30, the server
default. -/
theorem C10_ema_no_validation_witness :
    exponential_moving_average [3, 4] 30 = .ok (List.replicate 2 none) :=
  C10_ema_no_validation [3, 4] 30 (by decide) (by decide)

/-- C5: wherever the three series returned by macd are all defined, the
histogram is exactly the difference of the macd line and the signal line. -/
theorem C5_macd_identity (prices : List ℚ)
    (fastperiod slowperiod signalperiod : ℕ) (r : talib.MacdResult)
    (hr : macd prices fastperiod slowperiod signalperiod = .ok r)
    (i : ℕ) (a b c : ℚ)
    (hm : r.macdLine[i]? = some (some a))
    (hs : r.signalLine[i]? = some (some b))
    (hh : r.histogram[i]? = some (some c)) :
    c = a - b := by
  by_cases hz : fastperiod = 0 ∨ slowperiod = 0 ∨ signalperiod = 0
  · rw [macd, if_pos hz] at hr
    exact absurd hr (by simp)
  · rw [macd, if_neg hz] at hr
    injection hr with hr
    subst hr
    simp only [talib.MACD] at hm hs hh
    rw [List.getElem?_zipWith_eq_some] at hh
    obtain ⟨x, y, hx, hy, hxy⟩ := hh
    rw [hm] at hx
    rw [hs] at hy
    injection hx with hx
    injection hy with hy
    subst hx
    subst hy
    simp [talib.optSub] at hxy
    linarith [hxy]

/-- C5, witness on the series 1..6 with fast 2, slow 3, signal 2 at index
3, where macd = 1/2, signal = 1/2 and histogram = 0. -/
theorem C5_macd_identity_witness :
    (talib.MACD [1, 2, 3, 4, 5, 6] 2 3 2).histogram[3]? = some (some 0) ∧
    (0 : ℚ) = 1 / 2 - 1 / 2 := by
  constructor
  · norm_num [talib.MACD, talib.EMA, talib.emaRun, talib.optSub,
      talib.emaOptList, talib.leadNoneCount, List.zipWith, List.replicate,
      List.takeWhile, List.filterMap]
  · exact C5_macd_identity [1, 2, 3, 4, 5, 6] 2 3 2 _ rfl 3 (1 / 2) (1 / 2) 0
      (by norm_num [talib.MACD, talib.EMA, talib.emaRun, talib.optSub,
        talib.emaOptList, talib.leadNoneCount, List.zipWith, List.replicate,
        List.takeWhile, List.filterMap])
      (by norm_num [talib.MACD, talib.EMA, talib.emaRun, talib.optSub,
        talib.emaOptList, talib.leadNoneCount, List.zipWith, List.replicate,
        List.takeWhile, List.filterMap])
      (by norm_num [talib.MACD, talib.EMA, talib.emaRun, talib.optSub,
        talib.emaOptList, talib.leadNoneCount, List.zipWith, List.replicate,
        List.takeWhile, List.filterMap])

/-- C8: the multi-series entry points stochastic_oscillator and
average_true_range reject input series of unequal lengths with a shape
mismatch error, for every parameter choice, and return no result. -/
theorem C8_shape_mismatch (high_prices low_prices close_prices : List ℚ)
    (hmis : ¬ (high_prices.length = low_prices.length ∧
      low_prices.length = close_prices.length)) :
    (∀ fastk_period slowk_period slowd_period,
      stochastic_oscillator high_prices low_prices close_prices
        fastk_period slowk_period slowd_period = .error .shapeMismatch) ∧
    (∀ timeperiod,
      average_true_range high_prices low_prices close_prices timeperiod =
        .error .shapeMismatch) := by
  exact ⟨fun fk sk sd => by rw [stochastic_oscillator, if_neg hmis],
    fun tp => by rw [average_true_range, if_neg hmis]⟩

/-- C8, witness: one high against two lows and one close is rejected by
both entry points. -/
theorem C8_shape_mismatch_witness :
    stochastic_oscillator [1] [1, 2] [1] 5 3 3 = .error .shapeMismatch ∧
    average_true_range [1] [1, 2] [1] 14 = .error .shapeMismatch :=
  ⟨(C8_shape_mismatch [1] [1, 2] [1] (by decide)).1 5 3 3,
    (C8_shape_mismatch [1] [1, 2] [1] (by decide)).2 14⟩

namespace talib

/-- Zipping the same series into all four OHLC components gives the bars of
a perfectly flat series. -/
theorem mkBars_flat (s : List ℚ) :
    mkBars s s s s = s.map fun x => ⟨x, x, x, x⟩ := by
  induction s with
  | nil => rfl
  | cons x xs ih => simp [mkBars, ih]

/-- A perfectly flat bar has zero body and zero range and is a Doji. -/
theorem dojiBar_flat (x : ℚ) : dojiBar ⟨x, x, x, x⟩ = 100 := by
  simp [dojiBar, bodyLen, barRange]

/-- A perfectly flat bar has a zero-length lower shadow, so it is never a
Hammer, whatever the prior bar. -/
theorem hammerBar_flat (prev : Bar) (x : ℚ) : hammerBar prev ⟨x, x, x, x⟩ = 0 := by
  simp [hammerBar, lowerShadow]

/-- A perfectly flat bar has a zero-length upper shadow, so it is never a
Shooting Star, whatever the prior bar. -/
theorem shootingStarBar_flat (prev : Bar) (x : ℚ) :
    shootingStarBar prev ⟨x, x, x, x⟩ = 0 := by
  simp [shootingStarBar, upperShadow]

/-- A perfectly flat bar has no color, so it never engulfs, whatever the
prior bar. -/
theorem engulfingBar_flat (prev : Bar) (x : ℚ) :
    engulfingBar prev ⟨x, x, x, x⟩ = 0 := by
  simp [engulfingBar]

/-- A two-bar rule that ignores flat bars emits all zeros along a flat
series, whatever the carried prior bar. -/
theorem mapWithPrev_flat (f : Bar → Bar → ℤ)
    (hf : ∀ (p : Bar) (x : ℚ), f p ⟨x, x, x, x⟩ = 0) :
    ∀ (xs : List ℚ) (prev : Bar),
      mapWithPrev f prev (xs.map fun x => ⟨x, x, x, x⟩) =
        List.replicate xs.length 0
  | [], _ => rfl
  | x :: xs, prev => by
    simp only [List.map_cons, mapWithPrev, hf prev x, List.length_cons,
      List.replicate_succ]
    exact congrArg _ (mapWithPrev_flat f hf xs ⟨x, x, x, x⟩)

/-- A two-bar pattern series over a flat series is all zeros. -/
theorem patternSeries_flat (f : Bar → Bar → ℤ)
    (hf : ∀ (p : Bar) (x : ℚ), f p ⟨x, x, x, x⟩ = 0) (s : List ℚ) :
    patternSeries f (mkBars s s s s) = List.replicate s.length 0 := by
  cases s with
  | nil => rfl
  | cons x xs =>
    rw [mkBars_flat]
    simp only [List.map_cons, patternSeries, List.length_cons,
      List.replicate_succ]
    exact congrArg _ (mapWithPrev_flat f hf xs ⟨x, x, x, x⟩)

end talib

namespace talib

theorem diffs_length : ∀ l : List ℚ, (diffs l).length = l.length - 1
  | [] => rfl
  | [_] => rfl
  | x :: y :: xs => by
    simp only [diffs, List.length_cons, diffs_length (y :: xs)]
    omega

theorem RSI_length (prices : List ℚ) (period : ℕ) :
    (RSI prices period).length = prices.length := by
  cases prices with
  | nil => rfl
  | cons p ps =>
    rw [RSI]
    simp [List.length_zipWith, wilder_length, diffs_length]

/-- Warm-up positions of the RSI, the leading period indices, hold the
undefined sentinel. -/
theorem RSI_warmup (prices : List ℚ) (period i : ℕ)
    (hi : i < period) (hlen : i < prices.length) :
    (RSI prices period)[i]? = some none := by
  cases prices with
  | nil => simp at hlen
  | cons p ps =>
    rw [RSI]
    cases i with
    | zero => simp
    | succ i =>
      rw [List.getElem?_cons_succ, List.getElem?_zipWith']
      have hg : (wilder ((diffs (p :: ps)).map fun d => max d 0) period)[i]? =
          some none := by
        apply wilder_warmup
        · omega
        · simp only [List.length_map, diffs_length, List.length_cons]
          simp only [List.length_cons] at hlen
          omega
      have hl : i < (wilder ((diffs (p :: ps)).map fun d => max (-d) 0)
          period).length := by
        simp only [wilder_length, List.length_map, diffs_length,
          List.length_cons]
        simp only [List.length_cons] at hlen
        omega
      rw [hg, List.getElem?_eq_getElem hl]
      rfl

/-- A pointwise combination that absorbs an undefined left argument keeps
warm-up sentinels in place. -/
theorem zipWith_left_undefined (f : Option ℚ → Option ℚ → Option ℚ)
    (hf : ∀ b, f none b = none)
    (as bs : List (Option ℚ)) (i : ℕ)
    (ha : as[i]? = some none) (hb : i < bs.length) :
    (List.zipWith f as bs)[i]? = some none := by
  rw [List.getElem?_zipWith', ha, List.getElem?_eq_getElem hb]
  simp [hf]

theorem optAdd_none (b : Option ℚ) : optAdd none b = none := by
  cases b <;> rfl

theorem optSub_none (b : Option ℚ) : optSub none b = none := by
  cases b <;> rfl

theorem STDDEV_length (sq : ℚ → ℚ) (prices : List ℚ) (period : ℕ)
    (nbdev : ℚ) : (STDDEV sq prices period nbdev).length = prices.length := by
  simp [STDDEV]

/-- Unfolding of the middle band of BBANDS. -/
theorem BBANDS_middle (sq : ℚ → ℚ) (prices : List ℚ) (period : ℕ)
    (nbdevup nbdevdn : ℚ) :
    (BBANDS sq prices period nbdevup nbdevdn).middle = SMA prices period := rfl

/-- Unfolding of the upper band of BBANDS. -/
theorem BBANDS_upper (sq : ℚ → ℚ) (prices : List ℚ) (period : ℕ)
    (nbdevup nbdevdn : ℚ) :
    (BBANDS sq prices period nbdevup nbdevdn).upper =
      List.zipWith optAdd (SMA prices period)
        (STDDEV sq prices period nbdevup) := rfl

/-- Unfolding of the lower band of BBANDS. -/
theorem BBANDS_lower (sq : ℚ → ℚ) (prices : List ℚ) (period : ℕ)
    (nbdevup nbdevdn : ℚ) :
    (BBANDS sq prices period nbdevup nbdevdn).lower =
      List.zipWith optSub (SMA prices period)
        (STDDEV sq prices period nbdevdn) := rfl

theorem trList_length :
    ∀ (pc : ℚ) (bs : List (ℚ × ℚ × ℚ)), (trList pc bs).length = bs.length
  | _, [] => rfl
  | pc, (h, l, c) :: bs => by
    simp [trList, trList_length c bs]

theorem zip3Q_length :
    ∀ hs ls cs : List ℚ,
      (zip3Q hs ls cs).length = min hs.length (min ls.length cs.length)
  | h :: hs, l :: ls, c :: cs => by
    simp [zip3Q, zip3Q_length hs ls cs]
    omega
  | [], _, _ => by simp [zip3Q]
  | _ :: _, [], _ => by simp [zip3Q]
  | _ :: _, _ :: _, [] => by simp [zip3Q]

theorem ATR_length (highs lows closes : List ℚ) (period : ℕ)
    (h1 : highs.length = lows.length) (h2 : lows.length = closes.length) :
    (ATR highs lows closes period).length = closes.length := by
  cases highs with
  | nil =>
    cases lows with
    | nil =>
      cases closes with
      | nil => rfl
      | cons c cs => simp at h2
    | cons l ls => simp at h1
  | cons h hs =>
    cases lows with
    | nil => simp at h1
    | cons l ls =>
      cases closes with
      | nil => simp at h2
      | cons c cs =>
        show (none :: wilder (trList c (zip3Q hs ls cs)) period).length = _
        simp only [List.length_cons, wilder_length, trList_length,
          zip3Q_length]
        simp only [List.length_cons] at h1 h2
        omega

/-- Warm-up positions of the ATR, the leading period indices, hold the
undefined sentinel. -/
theorem ATR_warmup (highs lows closes : List ℚ) (period i : ℕ)
    (h1 : highs.length = lows.length) (h2 : lows.length = closes.length)
    (hi : i < period) (hlen : i < closes.length) :
    (ATR highs lows closes period)[i]? = some none := by
  cases highs with
  | nil =>
    cases lows with
    | nil =>
      cases closes with
      | nil => simp at hlen
      | cons c cs => simp at h2
    | cons l ls => simp at h1
  | cons h hs =>
    cases lows with
    | nil => simp at h1
    | cons l ls =>
      cases closes with
      | nil => simp at h2
      | cons c cs =>
        show (none :: wilder (trList c (zip3Q hs ls cs)) period)[i]? =
          some none
        cases i with
        | zero => simp
        | succ i =>
          rw [List.getElem?_cons_succ]
          apply wilder_warmup
          · omega
          · rw [trList_length, zip3Q_length]
            simp only [List.length_cons] at h1 h2 hlen
            omega

/-- The guarded ratio formula keeps every RSI value between 0 and 100 as
long as the smoothed average gain and loss are nonnegative. -/
theorem rsiVal_bounds (g l : ℚ) (hg : 0 ≤ g) (hl : 0 ≤ l) :
    0 ≤ rsiVal g l ∧ rsiVal g l ≤ 100 := by
  rw [rsiVal]
  by_cases h : l = 0
  · rw [if_pos h]
    norm_num
  · rw [if_neg h]
    have hl' : 0 < l := lt_of_le_of_ne hl (Ne.symm h)
    have hr : 0 ≤ g / l := div_nonneg hg hl
    have h1 : (0 : ℚ) < 1 + g / l := by linarith
    have h2 : 100 / (1 + g / l) ≤ 100 := div_le_self (by norm_num) (by linarith)
    have h3 : 0 < 100 / (1 + g / l) := div_pos (by norm_num) h1
    constructor <;> linarith

/-- The Wilder recurrence keeps its running value nonnegative when the seed
and all inputs are nonnegative. -/
theorem wilderRun_nonneg (period : ℕ) (hper : 1 ≤ period) :
    ∀ (xs : List ℚ) (prev : ℚ), 0 ≤ prev → (∀ x ∈ xs, 0 ≤ x) →
      ∀ y ∈ wilderRun period prev xs, 0 ≤ y
  | [], _, _, _, y, hy => by simp [wilderRun] at hy
  | x :: xs, prev, hprev, hxs, y, hy => by
    have hx : 0 ≤ x := hxs x (by simp)
    have hp1 : (1 : ℚ) ≤ (period : ℚ) := by exact_mod_cast hper
    have hw : 0 ≤ (prev * ((period : ℚ) - 1) + x) / (period : ℚ) := by
      apply div_nonneg
      · nlinarith
      · linarith
    simp only [wilderRun] at hy
    rcases List.mem_cons.mp hy with rfl | hmem
    · exact hw
    · exact wilderRun_nonneg period hper xs _ hw
        (fun z hz => hxs z (by simp [hz])) y hmem

/-- Every defined value of a Wilder smoothing of nonnegative inputs is
nonnegative. -/
theorem wilder_nonneg (values : List ℚ) (period : ℕ)
    (hv : ∀ x ∈ values, 0 ≤ x) (q : ℚ) (i : ℕ)
    (h : (wilder values period)[i]? = some (some q)) : 0 ≤ q := by
  have hmem : some q ∈ wilder values period := List.getElem?_mem h
  by_cases hc : values.length < period ∨ period = 0
  · rw [wilder, if_pos hc] at hmem
    exact absurd (List.eq_of_mem_replicate hmem) (by simp)
  · rw [wilder, if_neg hc] at hmem
    have hper : 1 ≤ period := by omega
    have hseed : 0 ≤ (values.take period).sum / (period : ℚ) := by
      apply div_nonneg
      · exact List.sum_nonneg fun x hx => hv x (List.take_subset _ _ hx)
      · positivity
    rcases List.mem_append.mp hmem with hrep | hcons
    · exact absurd (List.eq_of_mem_replicate hrep) (by simp)
    · rcases List.mem_cons.mp hcons with heq | hmap
      · injection heq with heq
        rw [heq]
        exact hseed
      · rcases List.mem_map.mp hmap with ⟨y, hy, hyq⟩
        injection hyq with hyq
        rw [← hyq]
        exact wilderRun_nonneg period hper _ _ hseed
          (fun x hx => hv x (List.drop_subset _ _ hx)) y hy

/-- Every defined RSI output lies between 0 and 100. -/
theorem RSI_range (prices : List ℚ) (period i : ℕ) (q : ℚ)
    (h : (RSI prices period)[i]? = some (some q)) : 0 ≤ q ∧ q ≤ 100 := by
  cases prices with
  | nil => simp [RSI] at h
  | cons p ps =>
    rw [RSI] at h
    cases i with
    | zero => simp at h
    | succ i =>
      rw [List.getElem?_cons_succ] at h
      rw [List.getElem?_zipWith_eq_some] at h
      obtain ⟨x, y, hx, hy, hxy⟩ := h
      cases x with
      | none => simp [optRsi] at hxy
      | some g =>
        cases y with
        | none => simp [optRsi] at hxy
        | some l =>
          have hq : rsiVal g l = q := by simpa [optRsi] using hxy
          have hgn : 0 ≤ g := wilder_nonneg _ _
            (fun z hz => by
              rcases List.mem_map.mp hz with ⟨d, _, rfl⟩
              exact le_max_right d 0) g i hx
          have hln : 0 ≤ l := wilder_nonneg _ _
            (fun z hz => by
              rcases List.mem_map.mp hz with ⟨d, _, rfl⟩
              exact le_max_right (-d) 0) l i hy
          rw [← hq]
          exact rsiVal_bounds g l hgn hln

/-- Unfolding equation of one OBV step. -/
theorem obvRun_cons (pc acc c v : ℚ) (rest : List (ℚ × ℚ)) :
    obvRun pc acc ((c, v) :: rest) =
      (if pc < c then acc + v else if c < pc then acc - v else acc) ::
        obvRun c (if pc < c then acc + v else if c < pc then acc - v else acc)
          rest := rfl

/-- Along a strictly rising close series every OBV step adds its volume, so
the running value at index i is the accumulator plus the sum of the first
i + 1 remaining volumes. -/
theorem obvRun_get_of_chain :
    ∀ (cs vs : List ℚ) (pc acc : ℚ), List.Chain (· < ·) pc cs →
      ∀ i : ℕ, i < (obvRun pc acc (cs.zip vs)).length →
        (obvRun pc acc (cs.zip vs))[i]? = some (acc + (vs.take (i + 1)).sum)
  | [], vs, pc, acc, _, i, h => by simp [obvRun] at h
  | _ :: _, [], pc, acc, _, i, h => by simp [obvRun] at h
  | c :: cs, v :: vs, pc, acc, hc, i, h => by
    rcases hc with _ | ⟨hpc, hchain⟩
    rw [List.zip_cons_cons, obvRun_cons, if_pos hpc] at h ⊢
    cases i with
    | zero => simp
    | succ i =>
      rw [List.getElem?_cons_succ]
      have h2 : i < (obvRun c (acc + v) (cs.zip vs)).length := by
        simp only [List.length_cons] at h
        omega
      rw [obvRun_get_of_chain cs vs c (acc + v) hchain i h2]
      rw [List.take_succ_cons, List.sum_cons]
      exact congrArg some (by ring)
  termination_by cs => cs.length

/-- With nonnegative volumes the OBV accumulator never decreases along the
run when the closes are strictly rising. -/
theorem obvRun_chain_le :
    ∀ (cs vs : List ℚ) (pc acc : ℚ), List.Chain (· < ·) pc cs →
      (∀ v ∈ vs, 0 ≤ v) →
      List.Chain (· ≤ ·) acc (obvRun pc acc (cs.zip vs))
  | [], vs, pc, acc, _, _ => by simp [obvRun]
  | _ :: _, [], pc, acc, _, _ => by simp [obvRun]
  | c :: cs, v :: vs, pc, acc, hc, hv => by
    rcases hc with _ | ⟨hpc, hchain⟩
    simp only [List.zip_cons_cons, obvRun, if_pos hpc]
    refine List.Chain.cons ?_ ?_
    · have : 0 ≤ v := hv v (by simp)
      linarith
    · exact obvRun_chain_le cs vs c (acc + v) hchain
        fun w hw => hv w (by simp [hw])
  termination_by cs => cs.length

end talib

/-- C7, counterexample: the claim asserts that OBV is non-decreasing for
every volume series whenever the close series is strictly increasing, but
with close [1, 2] and volume [0, -1] the returned series [0, -1] strictly
decreases. -/
theorem C7_counterexample :
    on_balance_volume [1, 2] [0, -1] = .ok [0, -1] ∧
    ¬ List.Chain' (· ≤ ·) (talib.OBV [1, 2] [0, -1]) := by
  have hval : talib.OBV [1, 2] [0, -1] = [0, -1] := by
    norm_num [talib.OBV, talib.obvRun]
  constructor
  · rw [on_balance_volume, if_pos (by rfl), hval]
  · intro hch
    rw [hval] at hch
    have hch2 : List.Chain (· ≤ ·) (0 : ℚ) [-1] := hch
    rcases hch2 with _ | ⟨hle, _⟩
    linarith

/-- C7, amended: for equal-length non-empty close and volume series the
entry point returns talib.OBV, whose first entry is the first volume; when
the close series is strictly increasing every entry i is the cumulative
volume sum volume[0] + ... + volume[i], and the series is non-decreasing
provided every volume is nonnegative. -/
theorem C7_obv_amended (close_prices volume : List ℚ)
    (hlen : close_prices.length = volume.length)
    (hne : close_prices ≠ []) :
    on_balance_volume close_prices volume = .ok (talib.OBV close_prices volume) ∧
    (talib.OBV close_prices volume).head? = volume.head? ∧
    (List.Chain' (· < ·) close_prices →
      (∀ i : ℕ, i < (talib.OBV close_prices volume).length →
        (talib.OBV close_prices volume)[i]? =
          some ((volume.take (i + 1)).sum)) ∧
      ((∀ v ∈ volume, 0 ≤ v) →
        List.Chain' (· ≤ ·) (talib.OBV close_prices volume))) := by
  cases close_prices with
  | nil => exact absurd rfl hne
  | cons c cs =>
    cases volume with
    | nil => simp at hlen
    | cons v vs =>
      refine ⟨by rw [on_balance_volume, if_pos hlen], by simp [talib.OBV],
        fun hinc => ?_⟩
      have hchain : List.Chain (· < ·) c cs := hinc
      refine ⟨?_, ?_⟩
      · intro i h
        cases i with
        | zero => simp [talib.OBV]
        | succ i =>
          simp only [talib.OBV] at h ⊢
          rw [List.getElem?_cons_succ]
          rw [talib.obvRun_get_of_chain cs vs c v hchain i
            (by simpa using h)]
          rw [List.take_succ_cons, List.sum_cons]
      · intro hv
        simp only [talib.OBV]
        exact talib.obvRun_chain_le cs vs c v hchain
          fun w hw => hv w (by simp [hw])

/-- C7, amended, witness: close [1, 2, 3] with volume [5, 7, 9] gives the
cumulative sums [5, 12, 21], starting at the first volume and
non-decreasing. -/
theorem C7_obv_amended_witness :
    on_balance_volume [1, 2, 3] [5, 7, 9] = .ok (talib.OBV [1, 2, 3] [5, 7, 9]) ∧
    (talib.OBV [1, 2, 3] [5, 7, 9]).head? = some 5 ∧
    List.Chain' (· ≤ ·) (talib.OBV [1, 2, 3] [5, 7, 9]) := by
  have h := C7_obv_amended [1, 2, 3] [5, 7, 9] (by decide) (by decide)
  refine ⟨h.1, ?_, (h.2.2 (by norm_num)).2 (by norm_num)⟩
  rw [h.2.1]
  rfl

/-- C3: for the modelled indicator family, the SMA, EMA, RSI, the three
Bollinger bands and the ATR, every output series has exactly the length of
its input series and every position before the indicator's warm-up
requirement holds the explicit undefined sentinel, not an ordinary number
and not an omission. -/
theorem C3_length_and_warmup_sentinel (prices highs lows closes : List ℚ)
    (period : ℕ) (sq : ℚ → ℚ) (nbdevup nbdevdn : ℚ)
    (h1 : highs.length = lows.length) (h2 : lows.length = closes.length) :
    (talib.SMA prices period).length = prices.length ∧
    (talib.EMA prices period).length = prices.length ∧
    (talib.RSI prices period).length = prices.length ∧
    (talib.BBANDS sq prices period nbdevup nbdevdn).middle.length =
      prices.length ∧
    (talib.BBANDS sq prices period nbdevup nbdevdn).upper.length =
      prices.length ∧
    (talib.BBANDS sq prices period nbdevup nbdevdn).lower.length =
      prices.length ∧
    (talib.ATR highs lows closes period).length = closes.length ∧
    (∀ i, i + 1 < period → i < prices.length →
      (talib.SMA prices period)[i]? = some none ∧
      (talib.EMA prices period)[i]? = some none ∧
      (talib.BBANDS sq prices period nbdevup nbdevdn).middle[i]? =
        some none ∧
      (talib.BBANDS sq prices period nbdevup nbdevdn).upper[i]? =
        some none ∧
      (talib.BBANDS sq prices period nbdevup nbdevdn).lower[i]? =
        some none) ∧
    (∀ i, i < period → i < prices.length →
      (talib.RSI prices period)[i]? = some none) ∧
    (∀ i, i < period → i < closes.length →
      (talib.ATR highs lows closes period)[i]? = some none) := by
  refine ⟨talib.SMA_length prices period, talib.EMA_length prices period,
    talib.RSI_length prices period, ?_, ?_, ?_,
    talib.ATR_length highs lows closes period h1 h2,
    fun i hi hlen => ?_,
    fun i hi hlen => talib.RSI_warmup prices period i hi hlen,
    fun i hi hlen => talib.ATR_warmup highs lows closes period i h1 h2 hi hlen⟩
  · rw [talib.BBANDS_middle]
    exact talib.SMA_length prices period
  · rw [talib.BBANDS_upper]
    simp [List.length_zipWith, talib.SMA_length, talib.STDDEV_length]
  · rw [talib.BBANDS_lower]
    simp [List.length_zipWith, talib.SMA_length, talib.STDDEV_length]
  · refine ⟨talib.SMA_warmup prices period i hi hlen,
      talib.EMA_warmup prices period i hi hlen, ?_, ?_, ?_⟩
    · rw [talib.BBANDS_middle]
      exact talib.SMA_warmup prices period i hi hlen
    · rw [talib.BBANDS_upper]
      exact talib.zipWith_left_undefined talib.optAdd talib.optAdd_none _ _ i
        (talib.SMA_warmup prices period i hi hlen)
        (by rw [talib.STDDEV_length]; exact hlen)
    · rw [talib.BBANDS_lower]
      exact talib.zipWith_left_undefined talib.optSub talib.optSub_none _ _ i
        (talib.SMA_warmup prices period i hi hlen)
        (by rw [talib.STDDEV_length]; exact hlen)

/-- C3, witness on a three-point price series with period 3 and a matching
two-bar high-low-close triple: lengths are preserved and position 1, inside
every warm-up, holds the sentinel in each series. -/
theorem C3_length_and_warmup_sentinel_witness :
    (talib.SMA [1, 2, 3] 3).length = 3 ∧
    (talib.EMA [1, 2, 3] 3).length = 3 ∧
    (talib.RSI [1, 2, 3] 3).length = 3 ∧
    (talib.ATR [2, 3] [0, 1] [1, 2] 3).length = 2 ∧
    (talib.SMA [1, 2, 3] 3)[1]? = some none ∧
    (talib.EMA [1, 2, 3] 3)[1]? = some none ∧
    (talib.BBANDS id [1, 2, 3] 3 2 2).upper[1]? = some none ∧
    (talib.BBANDS id [1, 2, 3] 3 2 2).lower[1]? = some none ∧
    (talib.RSI [1, 2, 3] 3)[1]? = some none ∧
    (talib.ATR [2, 3] [0, 1] [1, 2] 3)[1]? = some none := by
  have h := C3_length_and_warmup_sentinel [1, 2, 3] [2, 3] [0, 1] [1, 2]
    3 id 2 2 (by decide) (by decide)
  exact ⟨h.1, h.2.1, h.2.2.1, h.2.2.2.2.2.2.1,
    (h.2.2.2.2.2.2.2.1 1 (by decide) (by decide)).1,
    (h.2.2.2.2.2.2.2.1 1 (by decide) (by decide)).2.1,
    (h.2.2.2.2.2.2.2.1 1 (by decide) (by decide)).2.2.2.1,
    (h.2.2.2.2.2.2.2.1 1 (by decide) (by decide)).2.2.2.2,
    h.2.2.2.2.2.2.2.2.1 1 (by decide) (by decide),
    h.2.2.2.2.2.2.2.2.2 1 (by decide) (by decide)⟩

/-- C6, counterexample: on the 14-element strictly increasing series 1..14
with timeperiod 14 the RSI output is undefined everywhere, including the
last index, because 14 prices yield only 13 differences; the claim's
asserted value of 100 at the last index does not hold. -/
theorem C6_counterexample :
    relative_strength_index
      [1, 2, 3, 4, 5, 6, 7, 8, 9, 10, 11, 12, 13, 14] 14 =
      .ok (List.replicate 14 none) := by
  rw [relative_strength_index, if_neg (by decide)]
  norm_num [talib.RSI, talib.wilder, talib.diffs, talib.optRsi,
    List.zipWith, List.replicate]

/-- C6, amended: every defined output of relative_strength_index lies in
the interval from 0 to 100; and for the 15-element strictly increasing
series 1..15 with timeperiod 14, one more bar than the period as the
seeding requires, the output at the last index equals 100. -/
theorem C6_rsi_amended :
    (∀ (prices : List ℚ) (period i : ℕ) (q : ℚ),
      (talib.RSI prices period)[i]? = some (some q) → 0 ≤ q ∧ q ≤ 100) ∧
    relative_strength_index
      [1, 2, 3, 4, 5, 6, 7, 8, 9, 10, 11, 12, 13, 14, 15] 14 =
      .ok (talib.RSI
        [1, 2, 3, 4, 5, 6, 7, 8, 9, 10, 11, 12, 13, 14, 15] 14) ∧
    (talib.RSI [1, 2, 3, 4, 5, 6, 7, 8, 9, 10, 11, 12, 13, 14, 15] 14)[14]? =
      some (some 100) := by
  refine ⟨talib.RSI_range,
    by rw [relative_strength_index, if_neg (by decide)], ?_⟩
  norm_num [talib.RSI, talib.wilder, talib.wilderRun, talib.diffs,
    talib.optRsi, talib.rsiVal, List.zipWith, List.replicate]

/-- C6, amended, witness: the series [1, 2, 1] with timeperiod 2 has the
defined RSI value 50 at its last index, which the range bound brackets
between 0 and 100. -/
theorem C6_rsi_amended_witness :
    (talib.RSI [1, 2, 1] 2)[2]? = some (some 50) ∧
    (0 : ℚ) ≤ 50 ∧ (50 : ℚ) ≤ 100 := by
  have hq : (talib.RSI [1, 2, 1] 2)[2]? = some (some 50) := by
    norm_num [talib.RSI, talib.wilder, talib.wilderRun, talib.diffs,
      talib.optRsi, talib.rsiVal, List.zipWith, List.replicate]
  exact ⟨hq, (C6_rsi_amended.1 [1, 2, 1] 2 2 50 hq).1,
    (C6_rsi_amended.1 [1, 2, 1] 2 2 50 hq).2⟩

/-- C9: on a perfectly flat OHLC series, where open = high = low = close at
every bar, hammer_pattern, shooting_star_pattern and engulfing_pattern
signal 0 at every index while doji_pattern signals Doji (the informational
code 100, in particular nonzero) at every index. -/
theorem C9_flat_series_patterns (s : List ℚ) :
    doji_pattern s s s s = .ok (List.replicate s.length 100) ∧
    hammer_pattern s s s s = .ok (List.replicate s.length 0) ∧
    shooting_star_pattern s s s s = .ok (List.replicate s.length 0) ∧
    engulfing_pattern s s s s = .ok (List.replicate s.length 0) := by
  refine ⟨?_, ?_, ?_, ?_⟩
  · rw [doji_pattern, if_pos ⟨rfl, rfl, rfl⟩]
    rw [talib.CDLDOJI, talib.mkBars_flat]
    congr 1
    induction s with
    | nil => rfl
    | cons x xs ih =>
      simp only [List.map_cons, talib.dojiBar_flat, List.length_cons,
        List.replicate_succ]
      exact congrArg _ ih
  · rw [hammer_pattern, if_pos ⟨rfl, rfl, rfl⟩]
    rw [talib.CDLHAMMER, talib.patternSeries_flat _ talib.hammerBar_flat]
  · rw [shooting_star_pattern, if_pos ⟨rfl, rfl, rfl⟩]
    rw [talib.CDLSHOOTINGSTAR,
      talib.patternSeries_flat _ talib.shootingStarBar_flat]
  · rw [engulfing_pattern, if_pos ⟨rfl, rfl, rfl⟩]
    rw [talib.CDLENGULFING,
      talib.patternSeries_flat _ talib.engulfingBar_flat]

end TalibMCP
